import Mathlib

/-!
Shallow embedding of `scripts/generate_cable_docs.py` and
`scripts/get_version.py`.

The toml library (`toml.load` / `toml.dumps`) is an external collaborator:
a parsed definition file is modelled by `TomlDoc` (with the `metadata`
section and its `name` / `description` / `requirements` entries optional,
since the script itself looks them up and raises `KeyError` when absent),
a file whose parse fails is modelled by `none`, and the serializer
`dumps` is an opaque parameter `TomlDoc → String`.

Filesystem state is passed explicitly: the list of files of the cable
directory (filename paired with the outcome of `toml.load`), the set of
existing asset image paths, and a store `String → Option String` for the
output documents.  Exceptions are modelled with `Except String`.
-/

/-- `CABLE_DIR = Path("./cable")` (as a path string). -/
def CABLE_DIR : String := "cable"

/-- `DOCS_DIR = Path("./docs")`. -/
def DOCS_DIR : String := "docs"

/-- `DOCS_CABLE_DIR = DOCS_DIR.joinpath("community_channels")`. -/
def DOCS_CABLE_DIR : String := DOCS_DIR ++ "/community_channels"

/-- The `[metadata]` table of a parsed channel definition file.  Each of the
entries the script reads is optional here, because the source looks them up
with `channel["metadata"]["name"]` (a `KeyError` if absent) and
`channel["metadata"].get("requirements", [])` (defaulted if absent). -/
structure MetaTable where
  name : Option String
  description : Option String
  requirements : Option (List String)
deriving DecidableEq, Repr

/-- A parsed toml document: its `metadata` table (absent if the file has no
`[metadata]` section) plus the remaining sections, carried opaquely so that
distinct files with equal metadata stay distinct and `dumps` may depend on
them. -/
structure TomlDoc where
  metadata : Option MetaTable
  rest : List (String × String)
deriving DecidableEq, Repr

/-- Outcome of `toml.load` on one file: `none` models a raised
`TomlDecodeError`. -/
abbrev LoadResult := Option TomlDoc

/-- Lexicographic (code-point) comparison of character lists, the order
Python uses on the path strings handed to `sorted`.  (Defined by structural
recursion so that it evaluates inside the kernel.) -/
def charListLe : List Char → List Char → Bool
  | [], _ => true
  | _ :: _, [] => false
  | a :: as, b :: bs => if a < b then true else if b < a then false else charListLe as bs

/-- `cable_dir.glob("*.toml")`: the filename matches iff it ends with
`.toml`. -/
def matchesTomlGlob (filename : String) : Bool :=
  List.isSuffixOf (".toml").data filename.data

/-- One insertion step of the (stable) sort modelling Python `sorted` on the
globbed paths; since all globbed paths share the directory prefix, comparing
full paths is comparing filenames. -/
def insertFile (x : String × LoadResult) : List (String × LoadResult) → List (String × LoadResult)
  | [] => [x]
  | y :: l => if charListLe x.1.data y.1.data then x :: y :: l else y :: insertFile x l

/-- `sorted(...)`: insertion sort by filename. -/
def sortFiles : List (String × LoadResult) → List (String × LoadResult)
  | [] => []
  | x :: l => insertFile x (sortFiles l)

/-- `sorted(cable_dir.glob("*.toml"))`: the `.toml` entries of the cable
directory in lexicographic filename order. -/
def sortedTomlFiles (files : List (String × LoadResult)) : List (String × LoadResult) :=
  sortFiles (files.filter (fun f => matchesTomlGlob f.1))

/-- Python `", ".join(parts)`. -/
def commaJoin : List String → String
  | [] => ""
  | [x] => x
  | x :: xs => x ++ ", " ++ commaJoin xs

/-- The requirements line of a fragment:
`", ".join((f"`r`" for r in reqs)) if reqs else "*None*"`. -/
def requirementsLine (channel_requirements : List String) : String :=
  if channel_requirements.isEmpty then "*None*"
  else commaJoin (channel_requirements.map (fun req => "`" ++ req ++ "`"))

/-- `str(Path(f"./assets/channels/{os_name}/{channel_name}.png"))` (pathlib
drops the leading `./`; no further normalization happens for ordinary
names). -/
def imgPathOf (os_name channel_name : String) : String :=
  "assets/channels/" ++ os_name ++ "/" ++ channel_name ++ ".png"

/-- The initial value of `docs`:
`f"\n# Community Channels ({os_name})\n    "` (the trailing four spaces are
the indentation of the closing triple quote). -/
def docsHeader (os_name : String) : String :=
  "\n# Community Channels (" ++ os_name ++ ")\n    "

/-- The body of the `for channel in channels` loop for one parsed channel:
everything appended to `docs` for it, or the `KeyError` the field lookups
raise.  `assets` is the set of asset paths for which `img_path.exists()` is
true. -/
def renderFragment (dumps : TomlDoc → String) (assets : List String)
    (os_name : String) (channel : TomlDoc) : Except String String :=
  match channel.metadata with
  | none => Except.error ("KeyError: metadata")
  | some m =>
    match m.name with
    | none => Except.error ("KeyError: name")
    | some channel_name =>
      match m.description with
      | none => Except.error ("KeyError: description")
      | some channel_desc =>
        let channel_requirements := m.requirements.getD []
        let img_path := imgPathOf os_name channel_name
        Except.ok
          ("\n### " ++ channel_name ++ "\n\n" ++ channel_desc ++ "\n\n"
            ++ (if img_path ∈ assets then
                  "![tv running the " ++ channel_name ++ " channel](" ++ img_path ++ ")\n"
                else "")
            ++ ("**Requirements:**\n\n" ++ requirementsLine channel_requirements ++ "\n\n")
            ++ "**Code:**\n\n"
            ++ ("```toml\n" ++ dumps channel ++ "\n```")
            ++ "\n\n"
            ++ "\n---\n")

/-- The whole `for` loop: fold the channels in order, threading the
accumulated `docs` string; a `TomlDecodeError` of `toml.load` or a
`KeyError` of a field lookup aborts the loop (propagating exception). -/
def renderChannels (dumps : TomlDoc → String) (assets : List String) (os_name : String) :
    List (String × LoadResult) → String → Except String String
  | [], docs => Except.ok docs
  | f :: rest, docs =>
    match f.2 with
    | none => Except.error ("TomlDecodeError: " ++ f.1)
    | some channel =>
      match renderFragment dumps assets os_name channel with
      | Except.error e => Except.error e
      | Except.ok frag => renderChannels dumps assets os_name rest (docs ++ frag)

/-- `generate_cable_docs(os_name)`.  `dirExists` is whether
`cable/<os_name>` existed before the call; the first component of the
result is whether it exists afterwards — `cable_dir.mkdir(parents=True,
exist_ok=True)` makes that unconditionally true and never raises for a
pre-existing directory.  `files` is the directory listing (filename and
`toml.load` outcome). -/
def generate_cable_docs (dumps : TomlDoc → String) (assets : List String)
    (os_name : String) (dirExists : Bool) (files : List (String × LoadResult)) :
    Bool × Except String String :=
  let _ := dirExists
  (true, renderChannels dumps assets os_name (sortedTomlFiles files) (docsHeader os_name))

/-- `DOCS_CABLE_DIR.joinpath(f"{os_name}.md")`. -/
def outPath (os_name : String) : String :=
  DOCS_CABLE_DIR ++ "/" ++ os_name ++ ".md"

/-- The confirmation line printed per OS family.  The `with open(...) as
docs_file` statement rebinds `docs_file` from the `Path` to the (by then
closed) file object, so the f-string interpolates the `TextIOWrapper` repr,
which embeds the output path as its `name` attribute. -/
def printedLine (os_name : String) : String :=
  "Generated documentation for " ++ os_name
    ++ " community channels at <_io.TextIOWrapper name=\x27" ++ outPath os_name
    ++ "\x27 mode=\x27w\x27 encoding=\x27utf-8\x27>"

/-- Observable outcome of the `__main__` block: the file writes performed in
order (path, full contents), the lines printed, and the uncaught exception
(if any) that terminated the loop. -/
structure MainResult where
  writes : List (String × String)
  printed : List String
  errored : Option String
deriving DecidableEq, Repr

/-- The `for os_name in ("unix", "windows")` loop of `__main__`.  For each
family: run `generate_cable_docs` (an exception aborts everything, before
any unlink/open/write for that family), then create the parent directory,
unlink a pre-existing document and write the new one (jointly: set the
store at `outPath os_name` to the new contents), then print. -/
def run_main (dumps : TomlDoc → String) (assets : List String)
    (dirExists : String → Bool) (dirs : String → List (String × LoadResult)) :
    List String → MainResult
  | [] => { writes := [], printed := [], errored := none }
  | os_name :: rest =>
    match (generate_cable_docs dumps assets os_name (dirExists os_name) (dirs os_name)).2 with
    | Except.error e => { writes := [], printed := [], errored := some e }
    | Except.ok docs_content =>
      let r := run_main dumps assets dirExists dirs rest
      { writes := (outPath os_name, docs_content) :: r.writes,
        printed := printedLine os_name :: r.printed,
        errored := r.errored }

/-- The zero-argument entry point: both OS families, unix first. -/
def main_entry (dumps : TomlDoc → String) (assets : List String)
    (dirExists : String → Bool) (dirs : String → List (String × LoadResult)) : MainResult :=
  run_main dumps assets dirExists dirs [("unix"), ("windows")]

/-- Effect of a list of document writes on a file store: each write
(unlink-if-present followed by `open(..., "w")` and a full write) replaces
the contents at its path. -/
def applyWrites (store : String → Option String) :
    List (String × String) → String → Option String
  | [] => store
  | w :: ws => applyWrites (fun p => if p = w.1 then some w.2 else store p) ws

/-- Concatenation of a list of fragments (used to state what the loop
accumulates). -/
def strJoin : List String → String
  | [] => ""
  | s :: l => s ++ strJoin l

/-- A definition file on which the loop body raises: `toml.load` failed, or
the parsed document lacks `metadata.name` or `metadata.description`. -/
def malformedFile : LoadResult → Prop
  | none => True
  | some d =>
    d.metadata.bind MetaTable.name = none ∨ d.metadata.bind MetaTable.description = none

/-! ## `get_version.py` (`bump_version`) -/

/-- Decimal digit of `str(int)` formatting. -/
def digitChar : Nat → Char
  | 0 => (Char.mk 48 (by decide))
  | 1 => (Char.mk 49 (by decide))
  | 2 => (Char.mk 50 (by decide))
  | 3 => (Char.mk 51 (by decide))
  | 4 => (Char.mk 52 (by decide))
  | 5 => (Char.mk 53 (by decide))
  | 6 => (Char.mk 54 (by decide))
  | 7 => (Char.mk 55 (by decide))
  | 8 => (Char.mk 56 (by decide))
  | _ => (Char.mk 57 (by decide))

/-- Fuel-carrying core of decimal rendering (structural, so it evaluates in
the kernel). -/
def natToDigitsAux : Nat → Nat → List Char
  | 0, _ => []
  | fuel + 1, n =>
    if n < 10 then [digitChar n]
    else natToDigitsAux fuel (n / 10) ++ [digitChar (n % 10)]

/-- Python `str` of a nonnegative `int`: decimal digits, no leading zeros. -/
def natToDigits (n : Nat) : List Char :=
  natToDigitsAux (n + 1) n

/-- Numeric value of a digit string (the value Python `int` computes on a
plain decimal literal). -/
def pyIntVal (l : List Char) : Nat :=
  l.foldl (fun acc c => 10 * acc + (c.toNat - 48)) 0

/-- Python `int(s)` restricted to the plain decimal literals that occur as
version components: succeeds exactly on a nonempty string of ASCII digits
(otherwise `ValueError`). -/
def pyIntDigits (l : List Char) : Option Nat :=
  if l ≠ [] ∧ l.all Char.isDigit = true then some (pyIntVal l) else none

/-- Python `version.split(".")` (separator is the single dot character). -/
def splitDot : List Char → List (List Char)
  | [] => [[]]
  | c :: rest =>
    if c = ('.' : Char) then [] :: splitDot rest
    else
      match splitDot rest with
      | [] => [[c]]
      | h :: t => (c :: h) :: t

/-- `bump_version(version)`:
`major, minor, patch = version.split(".")` (a `ValueError` unless exactly 3
parts), then `f"{major}.{minor}.{int(patch) + 1}"`. -/
def bump_version (version : String) : Option String :=
  match splitDot version.data with
  | [major, minor, patch] =>
    match pyIntDigits patch with
    | some p =>
      some (String.mk (major ++ ('.' : Char) :: (minor ++ ('.' : Char) :: natToDigits (p + 1))))
    | none => none
  | _ => none

/-! ## Concrete sample inputs (used by witness instantiations) -/

def mSample1 : MetaTable :=
  { name := some ("Plex"), description := some ("Streams media"),
    requirements := some [("curl"), ("jq")] }

def chSample1 : TomlDoc := { metadata := some mSample1, rest := [] }

def mSample2 : MetaTable :=
  { name := some ("IPTV"), description := some ("tv"), requirements := none }

def chSample2 : TomlDoc := { metadata := some mSample2, rest := [] }

def dumpsSample : TomlDoc → String := fun _ => "RAW"

def parseSample : String → Option TomlDoc := fun _ => some chSample1

def storeSample : String → Option String := fun _ => none

def dirExistsSample : String → Bool := fun _ => true

def dirsSample : String → List (String × LoadResult) := fun os_name =>
  if os_name = ("unix" : String) then [(("b.toml"), some chSample1), (("a.toml"), some chSample2)]
  else []

def dirsBad : String → List (String × LoadResult) := fun os_name =>
  if os_name = ("unix" : String) then [(("a.toml"), (none : LoadResult))] else []

/-! ## Order bridge: `charListLe` agrees with the lexicographic `String` order -/

theorem charListLe_iff_not_lex (as : List Char) :
    ∀ bs, charListLe as bs = true ↔ ¬ List.Lex (· < ·) bs as := by
  induction as with
  | nil =>
    intro bs
    constructor
    · intro _ h
      cases h
    · intro _
      rfl
  | cons a as ih =>
    intro bs
    cases bs with
    | nil =>
      constructor
      · intro h
        exact absurd h (by simp [charListLe])
      · intro h
        exact absurd (List.Lex.nil) h
    | cons b bs =>
      by_cases hab : a < b
      · have hnotlex : ¬ List.Lex (· < ·) (b :: bs) (a :: as) := by
          intro h
          cases h with
          | cons h => exact absurd hab (lt_irrefl a)
          | rel h => exact absurd hab (lt_asymm h)
        simp [charListLe, hab, hnotlex]
      · by_cases hba : b < a
        · have hlex : List.Lex (· < ·) (b :: bs) (a :: as) := List.Lex.rel hba
          simp [charListLe, hab, hba, hlex]
        · have heq : a = b := le_antisymm (not_lt.mp hba) (not_lt.mp hab)
          subst heq
          have hstep : charListLe (a :: as) (a :: bs) = charListLe as bs := by
            simp [charListLe]
          rw [hstep, ih bs]
          constructor
          · intro h hlex
            cases hlex with
            | cons h2 => exact h h2
            | rel h2 => exact absurd h2 (lt_irrefl a)
          · intro h h2
            exact h (List.Lex.cons h2)

theorem charListLe_iff_le (a b : String) : charListLe a.data b.data = true ↔ a ≤ b := by
  rw [String.le_iff_toList_le, charListLe_iff_not_lex, ← not_lt]
  exact Iff.rfl

theorem charListLe_total (a b : String)
    (h : charListLe a.data b.data = false) : charListLe b.data a.data = true := by
  rcases le_total a b with hle | hle
  · exact absurd ((charListLe_iff_le a b).mpr hle) (by simp [h])
  · exact (charListLe_iff_le b a).mpr hle

/-! ## Sorting lemmas -/

theorem mem_insertFile {a x : String × LoadResult} :
    ∀ {l : List (String × LoadResult)}, a ∈ insertFile x l ↔ a = x ∨ a ∈ l := by
  intro l
  induction l with
  | nil => simp [insertFile]
  | cons y l ih =>
    by_cases hc : charListLe x.1.data y.1.data = true
    · simp [insertFile, hc]
    · simp only [insertFile, hc]
      simp only [Bool.false_eq_true, if_false, List.mem_cons, ih]
      tauto

theorem mem_sortFiles {a : String × LoadResult} :
    ∀ {l : List (String × LoadResult)}, a ∈ sortFiles l ↔ a ∈ l := by
  intro l
  induction l with
  | nil => simp [sortFiles]
  | cons y l ih => simp [sortFiles, mem_insertFile, ih]

theorem pairwise_insertFile {x : String × LoadResult} :
    ∀ {l : List (String × LoadResult)},
      List.Pairwise (fun p q : String × LoadResult => p.1 ≤ q.1) l →
      List.Pairwise (fun p q : String × LoadResult => p.1 ≤ q.1) (insertFile x l) := by
  intro l
  induction l with
  | nil =>
    intro _
    simp [insertFile]
  | cons y l ih =>
    intro h
    rcases List.pairwise_cons.mp h with ⟨hy, hl⟩
    by_cases hc : charListLe x.1.data y.1.data = true
    · have hxy : x.1 ≤ y.1 := (charListLe_iff_le x.1 y.1).mp hc
      simp only [insertFile, hc, if_true]
      refine List.pairwise_cons.mpr ⟨?_, h⟩
      intro z hz
      rcases List.mem_cons.mp hz with hz | hz
      · exact hz ▸ hxy
      · exact le_trans hxy (hy z hz)
    · have hyx : y.1 ≤ x.1 :=
        (charListLe_iff_le y.1 x.1).mp (charListLe_total x.1 y.1 (by simp at hc; exact hc))
      simp only [insertFile, hc]
      simp only [Bool.false_eq_true, if_false]
      refine List.pairwise_cons.mpr ⟨?_, ih hl⟩
      intro z hz
      rcases mem_insertFile.mp hz with hz | hz
      · exact hz ▸ hyx
      · exact hy z hz

theorem pairwise_sortFiles :
    ∀ (l : List (String × LoadResult)),
      List.Pairwise (fun p q : String × LoadResult => p.1 ≤ q.1) (sortFiles l) := by
  intro l
  induction l with
  | nil => simp [sortFiles]
  | cons y l ih => exact pairwise_insertFile ih

theorem map_fst_insertFile_congr {x y : String × LoadResult} (hxy : x.1 = y.1) :
    ∀ {A B : List (String × LoadResult)}, A.map Prod.fst = B.map Prod.fst →
      (insertFile x A).map Prod.fst = (insertFile y B).map Prod.fst := by
  intro A
  induction A with
  | nil =>
    intro B hAB
    cases B with
    | nil => simp [insertFile, hxy]
    | cons b B => exact absurd hAB (by simp)
  | cons a A ih =>
    intro B hAB
    cases B with
    | nil => exact absurd hAB (by simp)
    | cons b B =>
      simp only [List.map_cons, List.cons.injEq] at hAB
      rcases hAB with ⟨hab, hAB⟩
      simp only [insertFile, hxy, hab]
      by_cases hc : charListLe y.1.data b.1.data = true
      · simp [hc, hxy, hab, hAB]
      · simp only [hc]
        simp only [Bool.false_eq_true, if_false, List.map_cons, hab]
        rw [ih hAB]

theorem map_fst_sortFiles_congr :
    ∀ {A B : List (String × LoadResult)}, A.map Prod.fst = B.map Prod.fst →
      (sortFiles A).map Prod.fst = (sortFiles B).map Prod.fst := by
  intro A
  induction A with
  | nil =>
    intro B hAB
    cases B with
    | nil => rfl
    | cons b B => exact absurd hAB (by simp)
  | cons a A ih =>
    intro B hAB
    cases B with
    | nil => exact absurd hAB (by simp)
    | cons b B =>
      simp only [List.map_cons, List.cons.injEq] at hAB
      rcases hAB with ⟨hab, hAB⟩
      exact map_fst_insertFile_congr hab (ih hAB)

theorem map_fst_filterGlob_congr :
    ∀ {A B : List (String × LoadResult)}, A.map Prod.fst = B.map Prod.fst →
      (A.filter (fun f => matchesTomlGlob f.1)).map Prod.fst
        = (B.filter (fun f => matchesTomlGlob f.1)).map Prod.fst := by
  intro A
  induction A with
  | nil =>
    intro B hAB
    cases B with
    | nil => rfl
    | cons b B => exact absurd hAB (by simp)
  | cons a A ih =>
    intro B hAB
    cases B with
    | nil => exact absurd hAB (by simp)
    | cons b B =>
      simp only [List.map_cons, List.cons.injEq] at hAB
      rcases hAB with ⟨hab, hAB⟩
      by_cases hm : matchesTomlGlob a.1 = true
      · rw [List.filter_cons_of_pos (by simpa using hm),
          List.filter_cons_of_pos (by simpa [← hab] using hm)]
        simp only [List.map_cons, hab]
        rw [ih hAB]
      · rw [List.filter_cons_of_neg (by simpa using hm),
          List.filter_cons_of_neg (by simpa [← hab] using hm)]
        exact ih hAB

theorem map_fst_sortedTomlFiles_congr {A B : List (String × LoadResult)}
    (hAB : A.map Prod.fst = B.map Prod.fst) :
    (sortedTomlFiles A).map Prod.fst = (sortedTomlFiles B).map Prod.fst :=
  map_fst_sortFiles_congr (map_fst_filterGlob_congr hAB)

/-! ## Renderer lemmas -/

theorem renderChannels_ok_decomp (dumps : TomlDoc → String) (assets : List String)
    (os_name : String) :
    ∀ (l : List (String × LoadResult)) (acc docs : String),
      renderChannels dumps assets os_name l acc = Except.ok docs →
      ∃ frags, docs = acc ++ strJoin frags
        ∧ List.Forall₂
            (fun (f : String × LoadResult) (frag : String) =>
              ∃ ch, f.2 = some ch ∧ renderFragment dumps assets os_name ch = Except.ok frag)
            l frags := by
  intro l
  induction l with
  | nil =>
    intro acc docs h
    refine ⟨[], ?_, List.Forall₂.nil⟩
    simp only [renderChannels] at h
    cases h
    simp [strJoin]
  | cons f rest ih =>
    intro acc docs h
    obtain ⟨fname, fload⟩ := f
    cases fload with
    | none =>
      simp only [renderChannels] at h
      exact absurd h (by simp)
    | some channel =>
      simp only [renderChannels] at h
      cases hr : renderFragment dumps assets os_name channel with
      | error e => rw [hr] at h; cases h
      | ok frag =>
        rw [hr] at h
        rcases ih (acc ++ frag) docs h with ⟨frags, hdocs, hall⟩
        refine ⟨frag :: frags, ?_, List.Forall₂.cons ⟨channel, rfl, hr⟩ hall⟩
        rw [hdocs, strJoin, String.append_assoc]

theorem renderFragment_error_of_malformed (dumps : TomlDoc → String) (assets : List String)
    (os_name : String) (channel : TomlDoc) (h : malformedFile (some channel)) :
    ∃ e, renderFragment dumps assets os_name channel = Except.error e := by
  simp only [malformedFile] at h
  cases hm : channel.metadata with
  | none => exact ⟨("KeyError: metadata"), by simp [renderFragment, hm]⟩
  | some m =>
    rw [hm] at h
    simp at h
    rcases h with h | h
    · exact ⟨("KeyError: name"), by simp [renderFragment, hm, h]⟩
    · cases hn : m.name with
      | none => exact ⟨("KeyError: name"), by simp [renderFragment, hm, hn]⟩
      | some channel_name =>
        exact ⟨("KeyError: description"), by simp [renderFragment, hm, hn, h]⟩

theorem renderChannels_error_of_malformed (dumps : TomlDoc → String) (assets : List String)
    (os_name : String) :
    ∀ (l : List (String × LoadResult)) (acc : String) (f : String × LoadResult),
      f ∈ l → malformedFile f.2 →
      ∃ e, renderChannels dumps assets os_name l acc = Except.error e := by
  intro l
  induction l with
  | nil =>
    intro acc f hf _
    exact absurd hf (List.not_mem_nil f)
  | cons g rest ih =>
    intro acc f hf hbad
    obtain ⟨gname, gload⟩ := g
    cases gload with
    | none => exact ⟨("TomlDecodeError: " ++ gname), by simp [renderChannels]⟩
    | some channel =>
      rcases List.mem_cons.mp hf with hf | hf
      · rw [hf] at hbad
        rcases renderFragment_error_of_malformed dumps assets os_name channel hbad with ⟨e, he⟩
        exact ⟨e, by simp [renderChannels, he]⟩
      · cases hr : renderFragment dumps assets os_name channel with
        | error e => exact ⟨e, by simp [renderChannels, hr]⟩
        | ok frag =>
          rcases ih (acc ++ frag) f hf hbad with ⟨e, he⟩
          exact ⟨e, by simp [renderChannels, hr, he]⟩

/-! ## Orchestrator lemmas -/

theorem run_main_writes_mem (dumps : TomlDoc → String) (assets : List String)
    (dirExists : String → Bool) (dirs : String → List (String × LoadResult)) :
    ∀ (oses : List String) (w : String × String),
      w ∈ (run_main dumps assets dirExists dirs oses).writes →
      ∃ os ∈ oses, w.1 = outPath os
        ∧ (generate_cable_docs dumps assets os (dirExists os) (dirs os)).2 = Except.ok w.2 := by
  intro oses
  induction oses with
  | nil =>
    intro w hw
    exact absurd hw (by simp [run_main])
  | cons os rest ih =>
    intro w hw
    simp only [run_main] at hw
    cases hg : (generate_cable_docs dumps assets os (dirExists os) (dirs os)).2 with
    | error e => rw [hg] at hw; exact absurd hw (by simp)
    | ok docs_content =>
      rw [hg] at hw
      simp only [List.mem_cons] at hw
      rcases hw with hw | hw
      · exact ⟨os, by simp, by rw [hw], by rw [hw]; exact hg⟩
      · rcases ih w hw with ⟨os2, hos2, h1, h2⟩
        exact ⟨os2, by simp [hos2], h1, h2⟩

theorem applyWrites_not_mem :
    ∀ (ws : List (String × String)) (store : String → Option String) (p : String),
      (∀ w ∈ ws, w.1 ≠ p) → applyWrites store ws p = store p := by
  intro ws
  induction ws with
  | nil => intro store p _; rfl
  | cons w ws ih =>
    intro store p h
    simp only [applyWrites]
    rw [ih _ p (fun v hv => h v (List.mem_cons_of_mem w hv))]
    have hne : p ≠ w.1 := fun hq => (h w (List.mem_cons_self w ws)) hq.symm
    simp [hne]

/-! ## Congruence lemmas: the output depends only on the directory listing
and on asset-path membership -/

theorem renderFragment_congr (dumps : TomlDoc → String) {assets₁ assets₂ : List String}
    (h : ∀ p, p ∈ assets₁ ↔ p ∈ assets₂) (os_name : String) (channel : TomlDoc) :
    renderFragment dumps assets₁ os_name channel
      = renderFragment dumps assets₂ os_name channel := by
  cases hm : channel.metadata with
  | none => simp [renderFragment, hm]
  | some m =>
    cases hn : m.name with
    | none => simp [renderFragment, hm, hn]
    | some channel_name =>
      cases hd : m.description with
      | none => simp [renderFragment, hm, hn, hd]
      | some channel_desc =>
        simp only [renderFragment, hm, hn, hd]
        rw [if_congr (h (imgPathOf os_name channel_name)) rfl rfl]

theorem renderChannels_congr (dumps : TomlDoc → String) {assets₁ assets₂ : List String}
    (h : ∀ p, p ∈ assets₁ ↔ p ∈ assets₂) (os_name : String) :
    ∀ (l : List (String × LoadResult)) (acc : String),
      renderChannels dumps assets₁ os_name l acc
        = renderChannels dumps assets₂ os_name l acc := by
  intro l
  induction l with
  | nil => intro acc; rfl
  | cons f rest ih =>
    intro acc
    obtain ⟨fname, fload⟩ := f
    cases fload with
    | none => rfl
    | some channel =>
      simp only [renderChannels]
      rw [← renderFragment_congr dumps h os_name channel]
      cases renderFragment dumps assets₁ os_name channel with
      | error e => rfl
      | ok frag => exact ih (acc ++ frag)

theorem generate_cable_docs_congr (dumps : TomlDoc → String) {assets₁ assets₂ : List String}
    (h : ∀ p, p ∈ assets₁ ↔ p ∈ assets₂) (os_name : String) (d₁ d₂ : Bool)
    (files : List (String × LoadResult)) :
    generate_cable_docs dumps assets₁ os_name d₁ files
      = generate_cable_docs dumps assets₂ os_name d₂ files := by
  simp only [generate_cable_docs]
  rw [renderChannels_congr dumps h]

theorem run_main_congr (dumps : TomlDoc → String) {assets₁ assets₂ : List String}
    {dirExists₁ dirExists₂ : String → Bool}
    {dirs₁ dirs₂ : String → List (String × LoadResult)}
    (hassets : ∀ p, p ∈ assets₁ ↔ p ∈ assets₂) (hdirs : ∀ os, dirs₁ os = dirs₂ os) :
    ∀ (oses : List String),
      run_main dumps assets₁ dirExists₁ dirs₁ oses
        = run_main dumps assets₂ dirExists₂ dirs₂ oses := by
  intro oses
  induction oses with
  | nil => rfl
  | cons os rest ih =>
    simp only [run_main]
    rw [← hdirs os,
      ← generate_cable_docs_congr dumps hassets os (dirExists₁ os) (dirExists₂ os) (dirs₁ os)]
    cases (generate_cable_docs dumps assets₁ os (dirExists₁ os) (dirs₁ os)).2 with
    | error e => rfl
    | ok docs_content => rw [ih]

/-! ## `bump_version` lemmas -/

theorem digitChar_toNat {n : Nat} (h : n < 10) : (digitChar n).toNat = 48 + n := by
  interval_cases n <;> rfl

theorem digitChar_isDigit {n : Nat} (h : n < 10) : (digitChar n).isDigit = true := by
  interval_cases n <;> rfl

theorem digitChar_ne_dot {n : Nat} (h : n < 10) : digitChar n ≠ ('.' : Char) := by
  interval_cases n <;> decide

theorem pyIntVal_append_digit (l : List Char) (c : Char) :
    pyIntVal (l ++ [c]) = 10 * pyIntVal l + (c.toNat - 48) := by
  simp [pyIntVal, List.foldl_append]

theorem natToDigitsAux_spec :
    ∀ (fuel n : Nat), n < fuel →
      pyIntVal (natToDigitsAux fuel n) = n
        ∧ natToDigitsAux fuel n ≠ []
        ∧ (∀ c ∈ natToDigitsAux fuel n, c.isDigit = true) := by
  intro fuel
  induction fuel with
  | zero => intro n h; exact absurd h (by omega)
  | succ fuel ih =>
    intro n h
    by_cases h10 : n < 10
    · refine ⟨?_, by simp [natToDigitsAux, h10], ?_⟩
      · simp [natToDigitsAux, h10, pyIntVal, digitChar_toNat h10]
      · intro c hc
        simp [natToDigitsAux, h10] at hc
        rw [hc]
        exact digitChar_isDigit h10
    · have hdiv : n / 10 < fuel := by omega
      rcases ih (n / 10) hdiv with ⟨hval, hne, hdig⟩
      have hmod : n % 10 < 10 := by omega
      refine ⟨?_, by simp [natToDigitsAux, h10], ?_⟩
      · rw [natToDigitsAux]
        simp only [h10, if_false]
        rw [pyIntVal_append_digit, hval, digitChar_toNat hmod]
        omega
      · intro c hc
        rw [natToDigitsAux] at hc
        simp only [h10, if_false, List.mem_append, List.mem_singleton] at hc
        rcases hc with hc | hc
        · exact hdig c hc
        · rw [hc]
          exact digitChar_isDigit hmod

theorem pyIntDigits_natToDigits (n : Nat) : pyIntDigits (natToDigits n) = some n := by
  rcases natToDigitsAux_spec (n + 1) n (by omega) with ⟨hval, hne, hdig⟩
  simp only [pyIntDigits, natToDigits]
  rw [if_pos ⟨hne, List.all_eq_true.mpr (fun c hc => hdig c hc)⟩, hval]

theorem dot_not_mem_natToDigits (n : Nat) : ('.' : Char) ∉ natToDigits n := by
  intro hmem
  rcases natToDigitsAux_spec (n + 1) n (by omega) with ⟨_, _, hdig⟩
  have := hdig ('.' : Char) hmem
  exact absurd this (by decide)

theorem splitDot_no_dot : ∀ (l : List Char), ('.' : Char) ∉ l → splitDot l = [l] := by
  intro l
  induction l with
  | nil => intro _; rfl
  | cons c rest ih =>
    intro h
    have hc : c ≠ ('.' : Char) := fun hc => h (hc ▸ List.mem_cons_self c rest)
    have hrest : ('.' : Char) ∉ rest := fun hr => h (List.mem_cons_of_mem c hr)
    simp only [splitDot, hc, if_false]
    rw [ih hrest]

theorem splitDot_append :
    ∀ (a r : List Char), ('.' : Char) ∉ a →
      splitDot (a ++ ('.' : Char) :: r) = a :: splitDot r := by
  intro a
  induction a with
  | nil => intro r _; simp [splitDot]
  | cons c rest ih =>
    intro r h
    have hc : c ≠ ('.' : Char) := fun hc => h (hc ▸ List.mem_cons_self c rest)
    have hrest : ('.' : Char) ∉ rest := fun hr => h (List.mem_cons_of_mem c hr)
    show splitDot (c :: (rest ++ ('.' : Char) :: r)) = (c :: rest) :: splitDot r
    simp only [splitDot, hc, if_false]
    rw [ih r hrest]

/-! ## Requirements line lemmas -/

theorem commaJoin_backtick_head (r : String) (L : List String) :
    ∃ s, commaJoin (("`" ++ r ++ "`") :: L) = "`" ++ s := by
  cases L with
  | nil =>
    exact ⟨r ++ "`", by simp [commaJoin, String.append_assoc]⟩
  | cons y L =>
    exact ⟨r ++ "`" ++ ", " ++ commaJoin (y :: L), by simp [commaJoin, String.append_assoc]⟩

theorem requirementsLine_ne_none (r : String) (rest : List String) :
    requirementsLine (r :: rest) ≠ "*None*" := by
  simp only [requirementsLine]
  rw [if_neg (by simp), List.map_cons]
  intro hEq
  rcases commaJoin_backtick_head r (rest.map (fun req => "`" ++ req ++ "`")) with ⟨s, hs⟩
  rw [hs] at hEq
  have hd := congrArg String.data hEq
  rw [String.data_append] at hd
  have h1 : (("`" : String)).data = [('`' : Char)] := rfl
  have h2 : (("*None*" : String)).data = ('*' : Char) :: (("None*" : String)).data := rfl
  rw [h1, h2, List.singleton_append] at hd
  injection hd with hd1 hd2
  exact absurd hd1 (by decide)

theorem requirementsLine_eq_none_iff (reqs : List String) :
    requirementsLine reqs = "*None*" ↔ reqs = [] := by
  cases reqs with
  | nil => simp [requirementsLine]
  | cons r rest =>
    exact iff_of_false (requirementsLine_ne_none r rest) (by simp)

theorem getD_nil_iff (o : Option (List String)) :
    o.getD [] = [] ↔ (o = none ∨ o = some []) := by
  cases o <;> simp

/-! ## Claims -/

/-- Claim C3: for every parsed channel record, the requirements line of
the fragment is the literal `*None*` marker exactly when the `requirements` field is
absent or empty, and otherwise the comma-separated sequence of
inline-code-formatted tokens in the order of the record; in particular
`["curl", "jq"]` renders as `` `curl`, `jq` ``. -/
theorem claim_C3 (dumps : TomlDoc → String) (assets : List String) (os_name : String)
    (channel : TomlDoc) (m : MetaTable) (channel_name channel_desc : String)
    (hm : channel.metadata = some m) (hn : m.name = some channel_name)
    (hd : m.description = some channel_desc) :
    (∃ A B, renderFragment dumps assets os_name channel
        = Except.ok (A ++ ("**Requirements:**\n\n"
            ++ requirementsLine (m.requirements.getD []) ++ "\n\n") ++ B))
    ∧ (requirementsLine (m.requirements.getD []) = "*None*"
        ↔ (m.requirements = none ∨ m.requirements = some []))
    ∧ (m.requirements.getD [] ≠ [] →
        requirementsLine (m.requirements.getD [])
          = commaJoin ((m.requirements.getD []).map (fun req => "`" ++ req ++ "`")))
    ∧ requirementsLine [("curl"), ("jq")] = "`curl`, `jq`" := by
  refine ⟨?_, ?_, ?_, rfl⟩
  · refine ⟨"\n### " ++ channel_name ++ "\n\n" ++ channel_desc ++ "\n\n"
        ++ (if imgPathOf os_name channel_name ∈ assets then
              "![tv running the " ++ channel_name ++ " channel]("
                ++ imgPathOf os_name channel_name ++ ")\n"
            else ""),
      "**Code:**\n\n" ++ ("```toml\n" ++ dumps channel ++ "\n```") ++ "\n\n" ++ "\n---\n", ?_⟩
    simp only [renderFragment, hm, hn, hd]
    simp only [String.append_assoc]
  · rw [requirementsLine_eq_none_iff, getD_nil_iff]
  · intro hne
    simp only [requirementsLine]
    rw [if_neg (fun hc => hne (List.isEmpty_iff.mp hc))]

/-- Witness for C3, at a record whose `requirements` is `["curl", "jq"]`. -/
theorem claim_C3_witness :
    (chSample1.metadata = some mSample1)
    ∧ (mSample1.name = some ("Plex")) ∧ (mSample1.description = some ("Streams media"))
    ∧ ((∃ A B, renderFragment dumpsSample [] ("unix") chSample1
          = Except.ok (A ++ ("**Requirements:**\n\n"
              ++ requirementsLine (mSample1.requirements.getD []) ++ "\n\n") ++ B))
      ∧ (requirementsLine (mSample1.requirements.getD []) = "*None*"
          ↔ (mSample1.requirements = none ∨ mSample1.requirements = some []))
      ∧ (mSample1.requirements.getD [] ≠ [] →
          requirementsLine (mSample1.requirements.getD [])
            = commaJoin ((mSample1.requirements.getD []).map (fun req => "`" ++ req ++ "`")))
      ∧ requirementsLine [("curl"), ("jq")] = "`curl`, `jq`") :=
  ⟨rfl, rfl, rfl,
    claim_C3 dumpsSample [] ("unix") chSample1 mSample1 ("Plex") ("Streams media") rfl rfl rfl⟩

/-- Claim C4: for every parsed channel record there is a fixed decomposition
`A`, `B` of the fragment (independent of the asset directory) such that the
fragment is `A ++ B` when no image file exists at the derived path, and
`A ++ <image reference to that relative path> ++ B` when it does; the
existence check never makes the renderer fail (the result is `ok` either
way). -/
theorem claim_C4 (dumps : TomlDoc → String) (assets : List String) (os_name : String)
    (channel : TomlDoc) (m : MetaTable) (channel_name channel_desc : String)
    (hm : channel.metadata = some m) (hn : m.name = some channel_name)
    (hd : m.description = some channel_desc) :
    ∃ A B,
      (imgPathOf os_name channel_name ∉ assets →
        renderFragment dumps assets os_name channel = Except.ok (A ++ B))
      ∧ (imgPathOf os_name channel_name ∈ assets →
          renderFragment dumps assets os_name channel
            = Except.ok (A
                ++ ("![tv running the " ++ channel_name ++ " channel]("
                    ++ imgPathOf os_name channel_name ++ ")\n")
                ++ B))
      ∧ ∃ s, renderFragment dumps assets os_name channel = Except.ok s := by
  refine ⟨"\n### " ++ channel_name ++ "\n\n" ++ channel_desc ++ "\n\n",
    ("**Requirements:**\n\n" ++ requirementsLine (m.requirements.getD []) ++ "\n\n")
      ++ "**Code:**\n\n" ++ ("```toml\n" ++ dumps channel ++ "\n```") ++ "\n\n" ++ "\n---\n",
    ?_, ?_, ?_⟩
  · intro habs
    simp only [renderFragment, hm, hn, hd]
    rw [if_neg habs]
    simp only [String.append_assoc, String.append_empty, String.empty_append]
  · intro hpres
    simp only [renderFragment, hm, hn, hd]
    rw [if_pos hpres]
    simp only [String.append_assoc]
  · simp only [renderFragment, hm, hn, hd]
    exact ⟨_, rfl⟩

/-- Witness for C4, at a record named `Plex` with the asset present. -/
theorem claim_C4_witness :
    (chSample1.metadata = some mSample1)
    ∧ (mSample1.name = some ("Plex")) ∧ (mSample1.description = some ("Streams media"))
    ∧ ∃ A B,
        (imgPathOf ("unix") ("Plex") ∉ [("assets/channels/unix/Plex.png")] →
          renderFragment dumpsSample [("assets/channels/unix/Plex.png")] ("unix") chSample1
            = Except.ok (A ++ B))
        ∧ (imgPathOf ("unix") ("Plex") ∈ [("assets/channels/unix/Plex.png")] →
            renderFragment dumpsSample [("assets/channels/unix/Plex.png")] ("unix") chSample1
              = Except.ok (A
                  ++ ("![tv running the " ++ ("Plex") ++ " channel]("
                      ++ imgPathOf ("unix") ("Plex") ++ ")\n")
                  ++ B))
        ∧ ∃ s, renderFragment dumpsSample [("assets/channels/unix/Plex.png")] ("unix") chSample1
            = Except.ok s :=
  ⟨rfl, rfl, rfl,
    claim_C4 dumpsSample [("assets/channels/unix/Plex.png")] ("unix") chSample1 mSample1
      ("Plex") ("Streams media") rfl rfl rfl⟩

/-- Claim C7: the fenced code block of the fragment contains exactly the
canonical serializer text of the full record, and under the round-trip law
of the external parser, reparsing that text yields a record with metadata
structurally equal to the metadata of the original record. -/
theorem claim_C7 (parse : String → Option TomlDoc) (dumps : TomlDoc → String)
    (assets : List String) (os_name : String)
    (channel : TomlDoc) (m : MetaTable) (channel_name channel_desc : String)
    (hm : channel.metadata = some m) (hn : m.name = some channel_name)
    (hd : m.description = some channel_desc)
    (hrt : parse (dumps channel) = some channel) :
    (∃ A B, renderFragment dumps assets os_name channel
        = Except.ok (A ++ ("```toml\n" ++ dumps channel ++ "\n```") ++ B))
    ∧ ∃ r, parse (dumps channel) = some r ∧ r.metadata = channel.metadata := by
  refine ⟨?_, channel, hrt, rfl⟩
  refine ⟨"\n### " ++ channel_name ++ "\n\n" ++ channel_desc ++ "\n\n"
      ++ (if imgPathOf os_name channel_name ∈ assets then
            "![tv running the " ++ channel_name ++ " channel]("
              ++ imgPathOf os_name channel_name ++ ")\n"
          else "")
      ++ ("**Requirements:**\n\n" ++ requirementsLine (m.requirements.getD []) ++ "\n\n")
      ++ "**Code:**\n\n",
    "\n\n" ++ "\n---\n", ?_⟩
  simp only [renderFragment, hm, hn, hd]
  simp only [String.append_assoc]

/-- Witness for C7, with a parser that satisfies the round-trip law at the
sample record. -/
theorem claim_C7_witness :
    (chSample1.metadata = some mSample1)
    ∧ (parseSample (dumpsSample chSample1) = some chSample1)
    ∧ ((∃ A B, renderFragment dumpsSample [] ("unix") chSample1
          = Except.ok (A ++ ("```toml\n" ++ dumpsSample chSample1 ++ "\n```") ++ B))
      ∧ ∃ r, parseSample (dumpsSample chSample1) = some r
          ∧ r.metadata = chSample1.metadata) :=
  ⟨rfl, rfl,
    claim_C7 parseSample dumpsSample [] ("unix") chSample1 mSample1 ("Plex")
      ("Streams media") rfl rfl rfl rfl⟩

/-- Claim C5: an OS family whose definitions directory is missing or holds
no definition files is not an error: the directory exists afterwards
(`mkdir(parents=True, exist_ok=True)`), and the produced document is just
the top-level heading with no channel fragments. -/
theorem claim_C5 (dumps : TomlDoc → String) (assets : List String) (os_name : String)
    (dirExists : Bool) (files : List (String × LoadResult))
    (hempty : ∀ f ∈ files, matchesTomlGlob f.1 = false) :
    generate_cable_docs dumps assets os_name dirExists files
      = (true, Except.ok (docsHeader os_name)) := by
  have hfil : files.filter (fun f => matchesTomlGlob f.1) = [] :=
    List.filter_eq_nil_iff.mpr (fun f hf => by simp [hempty f hf])
  simp [generate_cable_docs, sortedTomlFiles, hfil, sortFiles, renderChannels]

/-- Witness for C5: a directory listing with no `.toml` entries (the empty
listing of a freshly created directory behaves the same). -/
theorem claim_C5_witness :
    (∀ f ∈ [(("README.md"), (none : LoadResult))], matchesTomlGlob f.1 = false)
    ∧ generate_cable_docs dumpsSample [] ("windows") false
        [(("README.md"), (none : LoadResult))]
      = (true, Except.ok (docsHeader ("windows"))) :=
  ⟨by decide,
    claim_C5 dumpsSample [] ("windows") false [(("README.md"), (none : LoadResult))]
      (by decide)⟩

/-- Claim C1: the channel fragments of the rendered document appear in
lexicographic order of the input filenames: the file sequence the generator
renders is sorted by name, that order is a function of the filenames alone
(not of file contents), and a successfully produced document is the header
followed by the fragments of exactly that sorted sequence, in order. -/
theorem claim_C1 (dumps : TomlDoc → String) (assets : List String) (os_name : String)
    (dirExists : Bool) (files files₂ : List (String × LoadResult)) (docs : String)
    (hnames : files₂.map Prod.fst = files.map Prod.fst)
    (hok : (generate_cable_docs dumps assets os_name dirExists files).2 = Except.ok docs) :
    List.Sorted (fun a b => a ≤ b) ((sortedTomlFiles files).map Prod.fst)
    ∧ (sortedTomlFiles files₂).map Prod.fst = (sortedTomlFiles files).map Prod.fst
    ∧ ∃ frags, docs = docsHeader os_name ++ strJoin frags
        ∧ List.Forall₂
            (fun (f : String × LoadResult) (frag : String) =>
              ∃ ch, f.2 = some ch ∧ renderFragment dumps assets os_name ch = Except.ok frag)
            (sortedTomlFiles files) frags := by
  refine ⟨?_, map_fst_sortedTomlFiles_congr hnames, ?_⟩
  · exact List.pairwise_map.mpr (pairwise_sortFiles _)
  · simp only [generate_cable_docs] at hok
    exact renderChannels_ok_decomp dumps assets os_name (sortedTomlFiles files)
      (docsHeader os_name) docs hok

/-- Witness for C1: two files listed out of name order, and a second listing
with the same names but different contents. -/
theorem claim_C1_witness :
    ([(("b.toml"), (none : LoadResult)), (("a.toml"), some chSample1)].map Prod.fst
      = [(("b.toml"), some chSample1), (("a.toml"), some chSample2)].map Prod.fst)
    ∧ ((generate_cable_docs dumpsSample [] ("unix") true
          [(("b.toml"), some chSample1), (("a.toml"), some chSample2)]).2
        = Except.ok ("\n# Community Channels (unix)\n    \n### IPTV\n\ntv\n\n**Requirements:**\n\n*None*\n\n**Code:**\n\n```toml\nRAW\n```\n\n\n---\n\n### Plex\n\nStreams media\n\n**Requirements:**\n\n`curl`, `jq`\n\n**Code:**\n\n```toml\nRAW\n```\n\n\n---\n"))
    ∧ (List.Sorted (fun a b => a ≤ b)
        ((sortedTomlFiles [(("b.toml"), some chSample1), (("a.toml"), some chSample2)]).map Prod.fst)
      ∧ (sortedTomlFiles [(("b.toml"), (none : LoadResult)), (("a.toml"), some chSample1)]).map Prod.fst
          = (sortedTomlFiles [(("b.toml"), some chSample1), (("a.toml"), some chSample2)]).map Prod.fst
      ∧ ∃ frags,
          ("\n# Community Channels (unix)\n    \n### IPTV\n\ntv\n\n**Requirements:**\n\n*None*\n\n**Code:**\n\n```toml\nRAW\n```\n\n\n---\n\n### Plex\n\nStreams media\n\n**Requirements:**\n\n`curl`, `jq`\n\n**Code:**\n\n```toml\nRAW\n```\n\n\n---\n")
            = docsHeader ("unix") ++ strJoin frags
          ∧ List.Forall₂
              (fun (f : String × LoadResult) (frag : String) =>
                ∃ ch, f.2 = some ch ∧ renderFragment dumpsSample [] ("unix") ch = Except.ok frag)
              (sortedTomlFiles [(("b.toml"), some chSample1), (("a.toml"), some chSample2)]) frags) :=
  ⟨rfl, rfl,
    claim_C1 dumpsSample [] ("unix") true
      [(("b.toml"), some chSample1), (("a.toml"), some chSample2)]
      [(("b.toml"), (none : LoadResult)), (("a.toml"), some chSample1)]
      ("\n# Community Channels (unix)\n    \n### IPTV\n\ntv\n\n**Requirements:**\n\n*None*\n\n**Code:**\n\n```toml\nRAW\n```\n\n\n---\n\n### Plex\n\nStreams media\n\n**Requirements:**\n\n`curl`, `jq`\n\n**Code:**\n\n```toml\nRAW\n```\n\n\n---\n")
      rfl rfl⟩

/-- Claim C2: a malformed definition file (parse failure or missing
`metadata.name` / `metadata.description`) makes the run raise before any
document for its OS family is written: `generate_cable_docs` yields an
error, and after the whole entry point runs, the store at the output path
of that family is unchanged — in particular no partial document exists
there. -/
theorem claim_C2 (dumps : TomlDoc → String) (assets : List String)
    (dirExists : String → Bool) (dirs : String → List (String × LoadResult))
    (store : String → Option String) (os_name : String) (f : String × LoadResult)
    (hos : os_name = "unix" ∨ os_name = "windows")
    (hf : f ∈ dirs os_name) (hglob : matchesTomlGlob f.1 = true)
    (hbad : malformedFile f.2) :
    (∃ e, (generate_cable_docs dumps assets os_name (dirExists os_name) (dirs os_name)).2
        = Except.error e)
    ∧ applyWrites store (main_entry dumps assets dirExists dirs).writes (outPath os_name)
        = store (outPath os_name) := by
  have hmem : f ∈ sortedTomlFiles (dirs os_name) :=
    mem_sortFiles.mpr (List.mem_filter.mpr ⟨hf, hglob⟩)
  have herr : ∃ e,
      (generate_cable_docs dumps assets os_name (dirExists os_name) (dirs os_name)).2
        = Except.error e := by
    rcases renderChannels_error_of_malformed dumps assets os_name
        (sortedTomlFiles (dirs os_name)) (docsHeader os_name) f hmem hbad with ⟨e, he⟩
    exact ⟨e, by simp only [generate_cable_docs]; exact he⟩
  refine ⟨herr, ?_⟩
  apply applyWrites_not_mem
  intro w hw hcontra
  rcases run_main_writes_mem dumps assets dirExists dirs [("unix"), ("windows")] w hw with
    ⟨os2, hos2, hpath, hok⟩
  have hpaths : outPath os2 = outPath os_name := by rw [← hpath, hcontra]
  rcases herr with ⟨e, he⟩
  simp only [List.mem_cons, List.not_mem_nil, or_false] at hos2
  rcases hos2 with h2 | h2 <;> rcases hos with h1 | h1 <;> subst h2 <;> subst h1
  · rw [he] at hok
    cases hok
  · exact absurd hpaths (by decide)
  · exact absurd hpaths (by decide)
  · rw [he] at hok
    cases hok

/-- Witness for C2: a directory whose single `.toml` file fails to parse. -/
theorem claim_C2_witness :
    ((("a.toml"), (none : LoadResult)) ∈ dirsBad ("unix"))
    ∧ matchesTomlGlob ("a.toml") = true
    ∧ malformedFile (none : LoadResult)
    ∧ ((∃ e, (generate_cable_docs dumpsSample [] ("unix") (dirExistsSample ("unix"))
          (dirsBad ("unix"))).2 = Except.error e)
      ∧ applyWrites storeSample (main_entry dumpsSample [] dirExistsSample dirsBad).writes
          (outPath ("unix"))
        = storeSample (outPath ("unix"))) :=
  ⟨by decide, by decide, trivial,
    claim_C2 dumpsSample [] dirExistsSample dirsBad storeSample ("unix")
      (("a.toml"), (none : LoadResult)) (Or.inl rfl) (by decide) (by decide) trivial⟩

/-- Claim C6: rendering is deterministic — two runs over extensionally equal
directory listings and asset sets (and any prior existence states of the
cable directories) produce identical outcomes: the same written documents,
byte for byte, the same printed lines and the same error state. -/
theorem claim_C6 (dumps : TomlDoc → String) (assets₁ assets₂ : List String)
    (dirExists₁ dirExists₂ : String → Bool)
    (dirs₁ dirs₂ : String → List (String × LoadResult))
    (hassets : ∀ p, p ∈ assets₁ ↔ p ∈ assets₂) (hdirs : ∀ os, dirs₁ os = dirs₂ os) :
    main_entry dumps assets₁ dirExists₁ dirs₁ = main_entry dumps assets₂ dirExists₂ dirs₂ :=
  run_main_congr dumps hassets hdirs [("unix"), ("windows")]

/-- Witness for C6: equal inputs presented differently (duplicated asset
entry, different directory-existence states). -/
theorem claim_C6_witness :
    main_entry dumpsSample [("assets/channels/unix/Plex.png")] dirExistsSample dirsSample
      = main_entry dumpsSample
          [("assets/channels/unix/Plex.png"), ("assets/channels/unix/Plex.png")]
          (fun _ => false) dirsSample :=
  claim_C6 dumpsSample [("assets/channels/unix/Plex.png")]
    [("assets/channels/unix/Plex.png"), ("assets/channels/unix/Plex.png")]
    dirExistsSample (fun _ => false) dirsSample dirsSample
    (fun p => by simp) (fun os => rfl)

/-- Claim C8: on a successful run the zero-argument entry point processes
both OS families, unix then windows, printing exactly one confirmation line
per family, and each line contains the output path of that family
(embedded in
the printed file-object repr). -/
theorem claim_C8 (dumps : TomlDoc → String) (assets : List String)
    (dirExists : String → Bool) (dirs : String → List (String × LoadResult)) (du dw : String)
    (hu : (generate_cable_docs dumps assets ("unix") (dirExists ("unix"))
        (dirs ("unix"))).2 = Except.ok du)
    (hw : (generate_cable_docs dumps assets ("windows") (dirExists ("windows"))
        (dirs ("windows"))).2 = Except.ok dw) :
    (main_entry dumps assets dirExists dirs).printed
      = [printedLine ("unix"), printedLine ("windows")]
    ∧ (∃ A B, printedLine ("unix") = A ++ outPath ("unix") ++ B)
    ∧ (∃ A B, printedLine ("windows") = A ++ outPath ("windows") ++ B) := by
  refine ⟨?_, ?_, ?_⟩
  · simp [main_entry, run_main, hu, hw]
  · exact ⟨"Generated documentation for " ++ "unix"
      ++ " community channels at <_io.TextIOWrapper name=\x27",
      "\x27 mode=\x27w\x27 encoding=\x27utf-8\x27>", rfl⟩
  · exact ⟨"Generated documentation for " ++ "windows"
      ++ " community channels at <_io.TextIOWrapper name=\x27",
      "\x27 mode=\x27w\x27 encoding=\x27utf-8\x27>", rfl⟩

/-- Witness for C8: a run where both families succeed. -/
theorem claim_C8_witness :
    ((generate_cable_docs dumpsSample [] ("unix") (dirExistsSample ("unix"))
        (dirsSample ("unix"))).2
      = Except.ok ("\n# Community Channels (unix)\n    \n### IPTV\n\ntv\n\n**Requirements:**\n\n*None*\n\n**Code:**\n\n```toml\nRAW\n```\n\n\n---\n\n### Plex\n\nStreams media\n\n**Requirements:**\n\n`curl`, `jq`\n\n**Code:**\n\n```toml\nRAW\n```\n\n\n---\n"))
    ∧ ((main_entry dumpsSample [] dirExistsSample dirsSample).printed
        = [printedLine ("unix"), printedLine ("windows")]
      ∧ (∃ A B, printedLine ("unix") = A ++ outPath ("unix") ++ B)
      ∧ (∃ A B, printedLine ("windows") = A ++ outPath ("windows") ++ B)) :=
  ⟨rfl,
    claim_C8 dumpsSample [] dirExistsSample dirsSample
      ("\n# Community Channels (unix)\n    \n### IPTV\n\ntv\n\n**Requirements:**\n\n*None*\n\n**Code:**\n\n```toml\nRAW\n```\n\n\n---\n\n### Plex\n\nStreams media\n\n**Requirements:**\n\n`curl`, `jq`\n\n**Code:**\n\n```toml\nRAW\n```\n\n\n---\n")
      (docsHeader ("windows")) rfl rfl⟩

/-- Claim C9: on a successful run exactly one document per OS family is
written, at the fixed output paths in order, with create-or-truncate
semantics: whatever the prior store held at those paths, afterwards it holds
exactly the new documents, and every other path is untouched. -/
theorem claim_C9 (dumps : TomlDoc → String) (assets : List String)
    (dirExists : String → Bool) (dirs : String → List (String × LoadResult)) (du dw : String)
    (store : String → Option String) (p : String)
    (hu : (generate_cable_docs dumps assets ("unix") (dirExists ("unix"))
        (dirs ("unix"))).2 = Except.ok du)
    (hw : (generate_cable_docs dumps assets ("windows") (dirExists ("windows"))
        (dirs ("windows"))).2 = Except.ok dw)
    (hp1 : p ≠ outPath ("unix")) (hp2 : p ≠ outPath ("windows")) :
    (main_entry dumps assets dirExists dirs).writes
      = [(outPath ("unix"), du), (outPath ("windows"), dw)]
    ∧ applyWrites store (main_entry dumps assets dirExists dirs).writes (outPath ("unix"))
        = some du
    ∧ applyWrites store (main_entry dumps assets dirExists dirs).writes (outPath ("windows"))
        = some dw
    ∧ applyWrites store (main_entry dumps assets dirExists dirs).writes p = store p := by
  have hwr : (main_entry dumps assets dirExists dirs).writes
      = [(outPath ("unix"), du), (outPath ("windows"), dw)] := by
    simp [main_entry, run_main, hu, hw]
  refine ⟨hwr, ?_, ?_, ?_⟩
  · rw [hwr]
    simp [applyWrites]
    intro h
    exact absurd h (by decide)
  · rw [hwr]
    simp [applyWrites]
  · rw [hwr]
    simp [applyWrites, hp1, hp2]

/-- Witness for C9: a successful run, checked at both output paths and at an
unrelated path. -/
theorem claim_C9_witness :
    ((generate_cable_docs dumpsSample [] ("windows") (dirExistsSample ("windows"))
        (dirsSample ("windows"))).2 = Except.ok (docsHeader ("windows")))
    ∧ (("docs/other.md" : String) ≠ outPath ("unix"))
    ∧ ((main_entry dumpsSample [] dirExistsSample dirsSample).writes
        = [(outPath ("unix"),
            ("\n# Community Channels (unix)\n    \n### IPTV\n\ntv\n\n**Requirements:**\n\n*None*\n\n**Code:**\n\n```toml\nRAW\n```\n\n\n---\n\n### Plex\n\nStreams media\n\n**Requirements:**\n\n`curl`, `jq`\n\n**Code:**\n\n```toml\nRAW\n```\n\n\n---\n")),
           (outPath ("windows"), docsHeader ("windows"))]
      ∧ applyWrites storeSample (main_entry dumpsSample [] dirExistsSample dirsSample).writes
          (outPath ("unix"))
        = some ("\n# Community Channels (unix)\n    \n### IPTV\n\ntv\n\n**Requirements:**\n\n*None*\n\n**Code:**\n\n```toml\nRAW\n```\n\n\n---\n\n### Plex\n\nStreams media\n\n**Requirements:**\n\n`curl`, `jq`\n\n**Code:**\n\n```toml\nRAW\n```\n\n\n---\n")
      ∧ applyWrites storeSample (main_entry dumpsSample [] dirExistsSample dirsSample).writes
          (outPath ("windows"))
        = some (docsHeader ("windows"))
      ∧ applyWrites storeSample (main_entry dumpsSample [] dirExistsSample dirsSample).writes
          ("docs/other.md")
        = storeSample ("docs/other.md")) :=
  ⟨rfl, by decide,
    claim_C9 dumpsSample [] dirExistsSample dirsSample
      ("\n# Community Channels (unix)\n    \n### IPTV\n\ntv\n\n**Requirements:**\n\n*None*\n\n**Code:**\n\n```toml\nRAW\n```\n\n\n---\n\n### Plex\n\nStreams media\n\n**Requirements:**\n\n`curl`, `jq`\n\n**Code:**\n\n```toml\nRAW\n```\n\n\n---\n")
      (docsHeader ("windows")) storeSample ("docs/other.md") rfl rfl (by decide) (by decide)⟩

/-- Claim C10: for every version string `<major>.<minor>.<patch>` whose
patch component is a decimal integer, `bump_version` returns the string with
the patch component incremented by exactly one and the major and minor
components unchanged. -/
theorem claim_C10 (major minor : List Char) (patch : Nat)
    (hmaj : ('.' : Char) ∉ major) (hmin : ('.' : Char) ∉ minor) :
    bump_version
        (String.mk (major ++ ('.' : Char) :: (minor ++ ('.' : Char) :: natToDigits patch)))
      = some (String.mk
          (major ++ ('.' : Char) :: (minor ++ ('.' : Char) :: natToDigits (patch + 1)))) := by
  simp only [bump_version]
  rw [splitDot_append major (minor ++ ('.' : Char) :: natToDigits patch) hmaj]
  rw [splitDot_append minor (natToDigits patch) hmin]
  rw [splitDot_no_dot (natToDigits patch) (dot_not_mem_natToDigits patch)]
  simp only [pyIntDigits_natToDigits]

/-- Witness for C10: `bump_version("0.7.2") = "0.7.3"`. -/
theorem claim_C10_witness :
    (('.' : Char) ∉ [('0' : Char)]) ∧ (('.' : Char) ∉ [('7' : Char)])
    ∧ bump_version
        (String.mk ([('0' : Char)] ++ ('.' : Char) :: ([('7' : Char)]
          ++ ('.' : Char) :: natToDigits 2)))
      = some (String.mk ([('0' : Char)] ++ ('.' : Char) :: ([('7' : Char)]
          ++ ('.' : Char) :: natToDigits (2 + 1)))) :=
  ⟨by decide, by decide, claim_C10 [('0' : Char)] [('7' : Char)] 2 (by decide) (by decide)⟩
